import Mathlib

/-!
Verification of the VoicePay Arc voice-command-to-transaction pipeline.

Shallow embedding of the pipeline's core functions:
- the deterministic fallback intent extractor and the AI-path intent
  construction (src/pages/api/nlp.ts),
- the request gate of the POST /api/nlp handler (src/pages/api/nlp.ts)
  together with sanitizeInput (validation library),
- the intent validator validatePaymentIntent, validateUSDCAmount and
  validateSufficientBalance (validation library),
- the transaction-executor pre-checks of handleSendTransaction
  (src/pages/index.tsx) and ArcService.validateAmount
  (src/lib/blockchain/arc.ts),
- the recording state machine pieces of the useVoice hook: the
  start-recording reentry guard, the onstop minimum-duration branch,
  the bounded command history (src/lib/hooks/useVoice.ts),
- the generic retry helper retryWithBackoff (src/lib/utils.ts).

Numbers are modelled as exact rationals; JavaScript NaN is modelled as
`none` in an `Option` where it can arise.  Text is modelled over `List Char`
with ASCII-level scanners that mirror the regular expressions of the source.
-/

namespace VoicePay

/-! ## Character and string scanning helpers (mirroring the JS regexes) -/

/-- ASCII lower-casing, the effect of `String.prototype.toLowerCase` on the
ASCII inputs the pipeline handles. -/
def toLowerStr (s : String) : String :=
  String.mk (s.data.map Char.toLower)

/-- Whitespace class of the JS `\s` (ASCII part) and of `trim`. -/
def isSpaceJS (c : Char) : Bool :=
  c == ' ' || c == '\t' || c == '\n' || c == '\r' ||
  c == (Char.ofNat 11) || c == (Char.ofNat 12)

/-- JS `\w` word-character class: `[A-Za-z0-9_]`. -/
def isWordChar (c : Char) : Bool :=
  c.isAlphanum || c == '_'

/-- Hex-digit class `[a-fA-F0-9]` of the address pattern. -/
def isHexDigitJS (c : Char) : Bool :=
  c.isDigit || ('a' ≤ c && c ≤ 'f') || ('A' ≤ c && c ≤ 'F')

/-- Does `needle` occur at the head of `hay`? -/
def headMatches : List Char → List Char → Bool
  | _, [] => true
  | [], _ :: _ => false
  | h :: hs, n :: ns => h == n && headMatches hs ns

/-- Substring containment over char lists (JS `String.prototype.includes`). -/
def containsSub : List Char → List Char → Bool
  | [], needle => needle.isEmpty
  | c :: t, needle => headMatches (c :: t) needle || containsSub t needle

/-- Substring containment on strings. -/
def strContains (s sub : String) : Bool :=
  containsSub s.data sub.data

/-- Split a list into its maximal leading run of decimal digits and the rest. -/
def takeDigits : List Char → List Char × List Char
  | [] => ([], [])
  | c :: t =>
    if c.isDigit then
      let p := takeDigits t
      (c :: p.1, p.2)
    else ([], c :: t)

/-- Numeric value of a digit run. -/
def digitsToNat (l : List Char) : Nat :=
  l.foldl (fun a c => a * 10 + (c.toNat - ('0').toNat)) 0

/-- Exact rational value of `intPart.fracPart`. -/
def ratOfDigits (intPart fracPart : List Char) : ℚ :=
  mkRat (digitsToNat intPart * 10 ^ fracPart.length + digitsToNat fracPart)
    (10 ^ fracPart.length)

/-- First match of the amount pattern `(\d+(?:\.\d+)?)`, scanning left to
right as the non-global JS regex does; returns the captured value. -/
def firstNumber : List Char → Option ℚ
  | [] => none
  | c :: t =>
    if c.isDigit then
      let p := takeDigits (c :: t)
      match p.2 with
      | '.' :: r2 =>
        let q := takeDigits r2
        if q.1.isEmpty then some (ratOfDigits p.1 [])
        else some (ratOfDigits p.1 q.1)
      | _ => some (ratOfDigits p.1 [])
    else firstNumber t

/-- Match of `0x[a-fA-F0-9]{40}` anchored at the current position. -/
def addressAt : List Char → Option (List Char)
  | '0' :: 'x' :: rest =>
    if 40 ≤ rest.length && (rest.take 40).all isHexDigitJS then
      some ('0' :: 'x' :: rest.take 40)
    else none
  | _ => none

/-- First match of the address pattern `0x[a-fA-F0-9]{40}` in the text. -/
def findAddress : List Char → Option (List Char)
  | [] => none
  | c :: t =>
    match addressAt (c :: t) with
    | some a => some a
    | none => findAddress t

/-- Case-insensitive (ASCII) keyword match at the head; returns the rest. -/
def keywordAt (kw : List Char) (l : List Char) : Option (List Char) :=
  match kw, l with
  | [], rest => some rest
  | _ :: _, [] => none
  | k :: ks, c :: cs =>
    if c.toLower == k.toLower then keywordAt ks cs else none

/-- Match `\s+(\w+)` at the current position; returns the captured word and
the remainder after it. -/
def spacedWordAt (l : List Char) : Option (List Char × List Char) :=
  match l with
  | [] => none
  | c :: t =>
    if isSpaceJS c then
      let rest := (c :: t).dropWhile isSpaceJS
      let w := rest.takeWhile isWordChar
      if w.isEmpty then none else some (w, rest.drop w.length)
    else none

/-- Match of `(?:to|for)\s+(\w+)` anchored at the current position (the
alternation tries the branches in source order). -/
def toForAt (l : List Char) : Option (List Char) :=
  match keywordAt (['t', 'o']) l with
  | some rest =>
    match spacedWordAt rest with
    | some p => some p.1
    | none => none
  | none =>
    match keywordAt (['f', 'o', 'r']) l with
    | some rest =>
      match spacedWordAt rest with
      | some p => some p.1
      | none => none
    | none => none

/-- First match of the recipient-name pattern `(?:to|for)\s+(\w+)`. -/
def findToForName : List Char → Option (List Char)
  | [] => none
  | c :: t =>
    match toForAt (c :: t) with
    | some w => some w
    | none => findToForName t

/-- Match of `(?:with|and)\s+(\w+)` anchored at the current position;
returns the captured word and the remainder after the whole match. -/
def withAndAt (l : List Char) : Option (List Char × List Char) :=
  match keywordAt (['w', 'i', 't', 'h']) l with
  | some rest => spacedWordAt rest
  | none =>
    match keywordAt (['a', 'n', 'd']) l with
    | some rest => spacedWordAt rest
    | none => none

/-- Global scan for `(?:with|and)\s+(\w+)`: successive non-overlapping
matches, resuming after each match, as the JS `g`-flagged regex does.
The fuel argument is initialized to the text length, which bounds the
number of scan steps since every step consumes at least one character. -/
def findParticipantsAux : Nat → List Char → List (List Char)
  | 0, _ => []
  | _ + 1, [] => []
  | n + 1, c :: t =>
    match withAndAt (c :: t) with
    | some (w, rest) => w :: findParticipantsAux n rest
    | none => findParticipantsAux n t

/-- All matches of the split-participant pattern in the text. -/
def findParticipants (l : List Char) : List (List Char) :=
  findParticipantsAux l.length l

/-! ## Payment-intent data model (src/lib/blockchain/types.ts) -/

/-- Participant in a split payment. -/
structure Participant where
  identifier : String
  amount : Option ℚ
  address : Option String
deriving DecidableEq, Repr

/-- Structured payment intent.  The action is kept as a string because the
validator guards against unrecognized runtime values; the `parsedAt`
timestamp carries no pipeline information and is omitted. -/
structure PaymentIntent where
  action : String
  amount : ℚ
  currency : String
  recipient : Option String
  participants : Option (List Participant)
  confirmationRequired : Bool
  originalCommand : String
  isValid : Bool
deriving DecidableEq, Repr

/-! ## Deterministic fallback extractor (extractIntentFallback, nlp.ts) -/

/-- Translation of `extractIntentFallback` from src/pages/api/nlp.ts:
keyword checks on the lower-cased text, first-number amount extraction,
split-participant scan, address / `to|for` recipient extraction, and the
send/transfer/pay/bill action decision. -/
def extractIntentFallback (text : String) : PaymentIntent :=
  let lowerText := toLowerStr text
  if strContains lowerText ("balance") || strContains lowerText ("how much") then
    ⟨"check_balance", 0, "USDC", none, none, false, text, true⟩
  else if strContains lowerText ("history") || strContains lowerText ("transaction") then
    ⟨"view_history", 0, "USDC", none, none, false, text, true⟩
  else if strContains lowerText ("cancel") then
    ⟨"cancel", 0, "USDC", none, none, true, text, true⟩
  else
    let amount : ℚ :=
      match firstNumber text.data with
      | some q => q
      | none => 0
    if strContains lowerText ("split") then
      let parts := (findParticipants text.data).map
        (fun w => Participant.mk (String.mk w) none none)
      ⟨"split", amount, "USDC", none,
        (if parts.isEmpty then none else some parts), true, text, true⟩
    else
      let recipient : Option String :=
        match findAddress text.data with
        | some a => some (String.mk a)
        | none =>
          match findToForName text.data with
          | some w => some (String.mk w)
          | none => none
      if strContains lowerText ("send") || strContains lowerText ("transfer") ||
          strContains lowerText ("pay") then
        ⟨(if strContains lowerText ("bill") then "pay_bill" else "send"),
          amount, "USDC", recipient, none, true, text, true⟩
      else
        ⟨"send", amount, "USDC", recipient, none, true, text, true⟩

/-! ## Loosely-typed JS values (AI-response parsing and request bodies) -/

/-- Model of the dynamically-typed JSON field values the nlp handler and the
AI-response parser manipulate.  `undef` stands for an absent field. -/
inductive JsVal where
  | undef : JsVal
  | null : JsVal
  | bool : Bool → JsVal
  | num : ℚ → JsVal
  | str : String → JsVal
deriving DecidableEq, Repr

/-- JS truthiness of a value (NaN is not representable in the exact model). -/
def jsTruthy : JsVal → Bool
  | .undef => false
  | .null => false
  | .bool b => b
  | .num q => !(q == 0)
  | .str s => !(s == "")

/-- The JS `x || dflt` idiom. -/
def jsOr (v dflt : JsVal) : JsVal :=
  if jsTruthy v then v else dflt

/-- Sign prefix of a JS float literal. -/
def parseSignChars : List Char → Int × List Char
  | '-' :: t => (-1, t)
  | '+' :: t => (1, t)
  | l => (1, l)

/-- Optional exponent suffix `e`/`E` with sign and digits; 0 when absent
or incomplete, as `parseFloat` ignores a trailing junk suffix. -/
def parseExpChars : List Char → Int
  | [] => 0
  | c :: t =>
    if c == 'e' || c == 'E' then
      let p := parseSignChars t
      let d := takeDigits p.2
      if d.1.isEmpty then 0 else p.1 * (digitsToNat d.1 : Int)
    else 0

/-- Exact value of `sign × intPart.fracPart × 10^exp`. -/
def floatFromParts (sign : Int) (ip fp : List Char) (exp : Int) : ℚ :=
  let scaled : Int := sign * ((digitsToNat ip : Int) * 10 ^ fp.length + digitsToNat fp)
  if 0 ≤ exp then mkRat (scaled * 10 ^ exp.toNat) (10 ^ fp.length)
  else mkRat scaled (10 ^ fp.length * 10 ^ (-exp).toNat)

/-- The JS `parseFloat` builtin on a character list: leading whitespace,
optional sign, digits with optional fraction and exponent, trailing junk
ignored; `none` models NaN (no digits at all). -/
def parseFloatChars (l : List Char) : Option ℚ :=
  let s := parseSignChars (l.dropWhile isSpaceJS)
  let ip := takeDigits s.2
  match ip.2 with
  | '.' :: r2 =>
    let fp := takeDigits r2
    if ip.1.isEmpty && fp.1.isEmpty then none
    else some (floatFromParts s.1 ip.1 fp.1 (parseExpChars fp.2))
  | _ =>
    if ip.1.isEmpty then none
    else some (floatFromParts s.1 ip.1 [] (parseExpChars ip.2))

/-- The JS `parseFloat` builtin on a string. -/
def parseFloatStr (s : String) : Option ℚ :=
  parseFloatChars s.data

/-- The effect of `parseFloat` on a loosely-typed value: numbers pass
through, strings are parsed, everything else is NaN (`none`). -/
def jsParseFloat : JsVal → Option ℚ
  | .num q => some q
  | .str s => parseFloatStr s
  | _ => none

/-! ## AI-path intent construction (extractIntent, nlp.ts lines 124-138) -/

/-- Fields of the JSON object recovered from the AI collaborator's free-form
response; each is an arbitrary loosely-typed value. -/
structure AIIntentData where
  action : JsVal
  amount : JsVal
  recipient : JsVal
  confirmationRequired : JsVal
deriving DecidableEq, Repr

/-- Intent as constructed on the AI path.  `action` and `recipient` keep the
loosely-typed value produced by the `||`-defaulting of the source. -/
structure AIPaymentIntent where
  action : JsVal
  amount : ℚ
  currency : String
  recipient : JsVal
  confirmationRequired : Bool
  originalCommand : String
  isValid : Bool
deriving DecidableEq, Repr

/-- Translation of the intent-construction block of `extractIntent`
(src/pages/api/nlp.ts): `action: intentData.action || "send"`,
`amount: parseFloat(intentData.amount) || 0`, `currency: "USDC"`,
`recipient: intentData.recipient || undefined`,
`confirmationRequired: intentData.confirmationRequired !== false`. -/
def extractIntentFromAI (text : String) (d : AIIntentData) : AIPaymentIntent :=
  { action := jsOr d.action (JsVal.str ("send"))
    amount := (jsParseFloat d.amount).getD 0
    currency := "USDC"
    recipient := jsOr d.recipient JsVal.undef
    confirmationRequired := d.confirmationRequired != JsVal.bool false
    originalCommand := text
    isValid := true }

/-! ## Request gate of POST /api/nlp (handler, nlp.ts lines 279-300) -/

/-- The JS `String.prototype.trim` on the ASCII whitespace class. -/
def trimJS (l : List Char) : List Char :=
  ((l.dropWhile isSpaceJS).reverse.dropWhile isSpaceJS).reverse

/-- Translation of `sanitizeInput` (validation library): trim, strip `<`
and `>`, strip control characters `\x00`-`\x1F` and `\x7F`. -/
def sanitizeInput (s : String) : String :=
  String.mk (((trimJS s.data).filter (fun c => !(c == '<' || c == '>'))).filter
    (fun c => !(c.toNat ≤ 31 || c.toNat == 127)))

/-- Outcome of the nlp handler's input gate.  `proceed` is the only outcome
in which the handler goes on to invoke intent extraction. -/
inductive NlpGateResult where
  | missingText : NlpGateResult
  | invalidText : NlpGateResult
  | proceed : String → NlpGateResult
deriving DecidableEq, Repr

/-- Translation of the input validation of the POST /api/nlp handler:
`if (!text || typeof text !== "string")` yields the 400 MISSING_TEXT
response; otherwise the text is sanitized and an empty result yields the
400 INVALID_TEXT response; otherwise extraction proceeds on the sanitized
text. -/
def nlpGate (text : Option JsVal) : NlpGateResult :=
  match text with
  | some (JsVal.str s) =>
    if s == "" then NlpGateResult.missingText
    else
      let st := sanitizeInput s
      if st.length == 0 then NlpGateResult.invalidText
      else NlpGateResult.proceed st
  | _ => NlpGateResult.missingText

/-- HTTP status of each gate outcome in the source. -/
def gateStatus : NlpGateResult → Nat
  | NlpGateResult.missingText => 400
  | NlpGateResult.invalidText => 400
  | NlpGateResult.proceed _ => 200

/-- Error code of each gate outcome in the source. -/
def gateErrorCode : NlpGateResult → Option String
  | NlpGateResult.missingText => some ("MISSING_TEXT")
  | NlpGateResult.invalidText => some ("INVALID_TEXT")
  | NlpGateResult.proceed _ => none

/-- Whether the handler invokes intent extraction for this gate outcome. -/
def gateInvokesExtraction : NlpGateResult → Bool
  | NlpGateResult.proceed _ => true
  | _ => false

/-! ## Validation library (src/lib/api/validation) -/

/-- Result shape of `validateAddress`. -/
structure AddressValidation where
  valid : Bool
  error : Option String
deriving DecidableEq, Repr

/-- Translation of `validateAddress`: the address-shape test itself is the
external `ethers.isAddress`, passed in as `isAddr`; a failing shape yields
the "Invalid address format" error. -/
def validateAddress (isAddr : String → Bool) (a : String) : AddressValidation :=
  if isAddr a then ⟨true, none⟩ else ⟨false, some ("Invalid address format")⟩

/-- The designated zero address (`ethers.ZeroAddress` is this very string,
so the source's two-way comparison collapses to one equality). -/
def zeroAddress : String :=
  "0x0000000000000000000000000000000000000000"

/-- Translation of `isZeroAddress`. -/
def isZeroAddress (a : String) : Bool :=
  a == zeroAddress

/-- Result shape of the amount validators. -/
structure AmountValidation where
  valid : Bool
  error : Option String
deriving DecidableEq, Repr

/-- Default minimum transfer amount, 0.01 USDC (the source's
`NEXT_PUBLIC_MIN_USDC_AMOUNT` fallback). -/
def minUSDCAmount : ℚ := Rat.mk' 1 100

/-- Default maximum transfer amount, 10000 USDC (the source's
`NEXT_PUBLIC_MAX_USDC_AMOUNT` fallback). -/
def maxUSDCAmount : ℚ := 10000

/-- Translation of `validateUSDCAmount` at its default options, applied to
an already-numeric amount as `validatePaymentIntent` does (the source
round-trips the number through `toString`/`parseFloat`, the identity on the
exact model, and NaN cannot arise from a rational).  The more-than-6-decimals
test of the string representation holds exactly when the reduced denominator
does not divide 10^6. -/
def validateUSDCAmount (amount : ℚ) : AmountValidation :=
  if amount ≤ 0 then ⟨false, some ("Amount must be greater than zero")⟩
  else if amount < minUSDCAmount then
    ⟨false, some ("Amount must be at least 0.01 USDC")⟩
  else if maxUSDCAmount < amount then
    ⟨false, some ("Amount cannot exceed 10000 USDC")⟩
  else if ¬ (amount.den ∣ 10 ^ 6) then
    ⟨false, some ("Amount cannot have more than 6 decimal places")⟩
  else ⟨true, none⟩

/-- Result shape of `validatePaymentIntent`. -/
structure IntentValidation where
  valid : Bool
  errors : List String
deriving DecidableEq, Repr

/-- The seven recognized actions, in source order. -/
def validActions : List String :=
  ["send", "request", "split", "pay_bill", "check_balance", "view_history", "cancel"]

/-- The actions that require a positive amount. -/
def actionsRequiringAmount : List String :=
  ["send", "split", "pay_bill"]

/-- Per-participant address errors of the split branch, in iteration order. -/
def participantAddressErrors (isAddr : String → Bool) : List Participant → List String
  | [] => []
  | p :: ps =>
    (match p.address with
     | some a =>
       if (validateAddress isAddr a).valid then []
       else ["Invalid address for participant: " ++ p.identifier]
     | none => []) ++ participantAddressErrors isAddr ps

/-- Translation of `validatePaymentIntent` (validation library): every rule
contributes its errors independently, in source order, and the result is
valid exactly when no error accumulated.  `isAddr` is the external
`ethers.isAddress` shape test. -/
def validatePaymentIntent (isAddr : String → Bool) (intent : PaymentIntent) :
    IntentValidation :=
  let actionErrors :=
    if validActions.contains intent.action then [] else ["Invalid payment action"]
  let amountErrors :=
    if actionsRequiringAmount.contains intent.action then
      (if intent.amount ≤ 0 then ["Amount is required and must be greater than zero"]
       else []) ++
      (let av := validateUSDCAmount intent.amount
       if av.valid then [] else [av.error.getD ("Invalid amount")])
    else []
  let recipientErrors :=
    if intent.action == "send" then
      match intent.recipient with
      | none => ["Recipient address is required for send action"]
      | some r =>
        (let rv := validateAddress isAddr r
         if rv.valid then [] else [rv.error.getD ("Invalid recipient address")]) ++
        (if isZeroAddress r then ["Cannot send to zero address"] else [])
    else []
  let participantErrors :=
    if intent.action == "split" then
      (match intent.participants with
       | none => ["Participants are required for split action"]
       | some ps =>
         if ps.isEmpty then ["Participants are required for split action"]
         else if ps.length < 2 then ["Split action requires at least 2 participants"]
         else []) ++
      (match intent.participants with
       | none => []
       | some ps => participantAddressErrors isAddr ps)
    else []
  let currencyErrors :=
    if intent.currency == "USDC" then [] else ["Only USDC is supported"]
  let errors :=
    actionErrors ++ amountErrors ++ recipientErrors ++ participantErrors ++ currencyErrors
  ⟨errors.isEmpty, errors⟩

/-- Classification of `validateSufficientBalance` failures (the source
carries interpolated message strings; only the class is modelled). -/
inductive BalanceErr where
  | invalidInput : BalanceErr
  | insufficient : BalanceErr
deriving DecidableEq, Repr

/-- Result shape of `validateSufficientBalance`. -/
structure BalanceValidation where
  sufficient : Bool
  error : Option BalanceErr
deriving DecidableEq, Repr

/-- Fixed gas-safety buffer of `validateSufficientBalance`, 0.01 USDC. -/
def gasBufferUSDC : ℚ := Rat.mk' 1 100

/-- Translation of `validateSufficientBalance` (validation library): the
arguments are `parseFloat(balance)` and `parseFloat(amount)` with `none`
for NaN; with the buffer included the requirement is `amount + 0.01`. -/
def validateSufficientBalance (balanceNum amountNum : Option ℚ)
    (includeGasBuffer : Bool) : BalanceValidation :=
  match balanceNum, amountNum with
  | some b, some a =>
    let buffer : ℚ := if includeGasBuffer then gasBufferUSDC else 0
    let required := a + buffer
    if b < required then ⟨false, some BalanceErr.insufficient⟩
    else ⟨true, none⟩
  | _, _ => ⟨false, some BalanceErr.invalidInput⟩

/-! ## Transaction executor pre-checks (handleSendTransaction, index.tsx) -/

/-- Translation of `ArcService.validateAmount` (src/lib/blockchain/arc.ts)
at its default bounds, applied to `intent.amount.toString()` whose
`parseFloat` round-trip is the identity on the exact model. -/
def arcValidateAmount (amount : ℚ) : AmountValidation :=
  if amount ≤ 0 then ⟨false, some ("Amount must be greater than zero")⟩
  else if amount < minUSDCAmount then
    ⟨false, some ("Amount must be at least 0.01 USDC")⟩
  else if maxUSDCAmount < amount then
    ⟨false, some ("Amount cannot exceed 10000 USDC")⟩
  else ⟨true, none⟩

/-- The ways `handleSendTransaction` aborts before submitting. -/
inductive SendAbort where
  | walletNotInitialized : SendAbort
  | recipientRequired : SendAbort
  | invalidAmount : SendAbort
  | amountValidationFailed : String → SendAbort
  | insufficientBalance : SendAbort
deriving DecidableEq, Repr

/-- Translation of the pre-submission checks of `handleSendTransaction`
(src/pages/index.tsx, lines 183-218), in source order: wallet service
present, truthy recipient, positive amount, `validateAmount`, then the
balance comparison `parseFloat(balance.usdc) < intent.amount` — with no
safety buffer.  `Except.ok` means the flow reaches `arcService.sendUSDC`. -/
def handleSendGate (arcInitialized : Bool) (recipient : Option String)
    (amount : ℚ) (balanceUsdc : ℚ) : Except SendAbort Unit :=
  if !arcInitialized then Except.error SendAbort.walletNotInitialized
  else if (recipient.getD "") == "" then Except.error SendAbort.recipientRequired
  else if amount ≤ 0 then Except.error SendAbort.invalidAmount
  else
    let av := arcValidateAmount amount
    if !av.valid then
      Except.error (SendAbort.amountValidationFailed (av.error.getD ("Invalid amount")))
    else if balanceUsdc < amount then Except.error SendAbort.insufficientBalance
    else Except.ok ()

/-! ## Recording state machine pieces (useVoice hook) -/

/-- Voice-processing states (src/lib/blockchain/types.ts). -/
inductive VoiceState where
  | idle : VoiceState
  | requesting : VoiceState
  | listening : VoiceState
  | processing : VoiceState
  | confirming : VoiceState
  | executing : VoiceState
  | complete : VoiceState
  | error : VoiceState
deriving DecidableEq, Repr

/-- Observable effects of the `mediaRecorder.onstop` closure. -/
structure OnStopEffects where
  pipelineInvoked : Bool
  errorMessage : Option String
  stateSet : VoiceState
  resourcesReleased : Bool
  idleDelayMs : Option Nat
deriving DecidableEq, Repr

/-- Translation of the `mediaRecorder.onstop` closure of `startRecording`
(src/lib/hooks/useVoice.ts, lines 319-334).  `recordingTime` is the
closure's reading of the elapsed seconds counter; when
`recordingTime * 1000 < minRecordingDuration` the too-short branch reports
the error, releases the resources, schedules the return to idle after
3000 ms, and returns without calling `processAudioBlob`; otherwise
`processAudioBlob` runs (entering the processing state) and the resources
are released. -/
def onStopRecording (recordingTime : Nat) (minRecordingDuration : Nat) : OnStopEffects :=
  if recordingTime * 1000 < minRecordingDuration then
    ⟨false, some ("Recording is too short. Please speak longer."),
      VoiceState.error, true, some 3000⟩
  else
    ⟨true, none, VoiceState.processing, true, none⟩

/-- The part of the hook state that `startRecording` reads or resets before
acquiring the microphone. -/
structure VoiceHookState where
  state : VoiceState
  error : Option String
  transcript : Option String
  intent : Option PaymentIntent
  recordingTime : Nat
deriving DecidableEq, Repr

/-- Result of invoking `startRecording`: the updated hook state and whether
a microphone acquisition (a new recording session) was initiated. -/
structure StartRecordingResult where
  hookState : VoiceHookState
  microphoneRequested : Bool
deriving DecidableEq, Repr

/-- Translation of the entry of `startRecording` (src/lib/hooks/useVoice.ts,
lines 266-285): the reentry guard returns at once unless the state is idle
or error; past the guard the state becomes requesting, the error,
transcript and intent are cleared, the timer is reset, and
`getUserMedia` is invoked. -/
def startRecordingStep (s : VoiceHookState) : StartRecordingResult :=
  if s.state ≠ VoiceState.idle ∧ s.state ≠ VoiceState.error then ⟨s, false⟩
  else ⟨⟨VoiceState.requesting, none, none, none, 0⟩, true⟩

/-! ## Bounded command history (useVoice hook) -/

/-- Command-history entry (the `Date` timestamp is omitted; a failed entry
stores no intent, as the source stores `null`). -/
structure VoiceCommand where
  id : String
  transcript : String
  intent : Option PaymentIntent
  success : Bool
deriving DecidableEq, Repr

/-- History capacity: the literal 10 of both `slice(0, 10)` calls. -/
def historyCapacity : Nat := 10

/-- Translation of the history update of `processAudioBlob`:
`setCommandHistory((prev) => [newCommand, ...prev].slice(0, 10))`. -/
def appendCommand (history : List VoiceCommand) (cmd : VoiceCommand) :
    List VoiceCommand :=
  (cmd :: history).take historyCapacity

/-- Translation of `clearHistory`: `setCommandHistory([])`. -/
def clearHistory (_history : List VoiceCommand) : List VoiceCommand :=
  []

/-! ## Bounded exponential-backoff retry (retryWithBackoff, utils.ts) -/

/-- Execution trace of `retryWithBackoff`: final outcome (`Except.error`
carries the thrown value, `none` standing for the undefined `lastError`
when the loop never ran), the number of attempts made, and the list of
back-off waits performed, in order. -/
structure RetryTrace (ε α : Type) where
  result : Except (Option ε) α
  attempts : Nat
  waits : List Nat

/-- Loop of `retryWithBackoff`, with `remaining = maxRetries - i` iterations
left, `i` the current attempt index and `last` the last stored error;
`fn i` is the outcome of the i-th call of the retried operation.  A wait of
`delay * 2 ^ i` happens after a failed attempt only when another iteration
follows (`i < maxRetries - 1` in the source). -/
def retryAux (fn : Nat → Except ε α) (delay : Nat) :
    Nat → Nat → Option ε → RetryTrace ε α
  | 0, _, last => ⟨Except.error last, 0, []⟩
  | n + 1, i, _ =>
    match fn i with
    | Except.ok v => ⟨Except.ok v, 1, []⟩
    | Except.error e =>
      let rest := retryAux fn delay n (i + 1) (some e)
      ⟨rest.result, rest.attempts + 1,
        (if n = 0 then [] else [delay * 2 ^ i]) ++ rest.waits⟩

/-- Translation of `retryWithBackoff` (src/lib/utils.ts, lines 329-348):
`for (let i = 0; i < maxRetries; i++) { try return fn() } catch { lastError
= e; if (i < maxRetries - 1) sleep(delay * 2 ** i) } }; throw lastError`. -/
def retryWithBackoff (fn : Nat → Except ε α) (maxRetries : Nat) (delay : Nat) :
    RetryTrace ε α :=
  retryAux fn delay maxRetries 0 none

/-- The concrete spec input for the balance query, built from characters
because of the embedded apostrophe: the text is `What` + apostrophe +
`s my balance?`. -/
def balanceQuestion : String :=
  String.mk ['W', 'h', 'a', 't', '\'', 's', ' ', 'm', 'y', ' ',
    'b', 'a', 'l', 'a', 'n', 'c', 'e', '?']

/-- The concrete spec input of the fallback round-trip property. -/
def sendFiftyCommand : String :=
  "Send 50 USDC to 0x1234567890123456789012345678901234567890"

/-! ## Theorems -/

/-- C2: for every recording whose elapsed-duration reading is below
`minRecordingDuration`, the onstop handler never invokes the
transcription/intent pipeline (`processAudioBlob`); it reports the
recording-too-short error, releases all audio resources, and schedules the
return to idle after the 3000 ms display delay. -/
theorem tooShortRecording_skips_pipeline (recordingTime minRecordingDuration : Nat)
    (h : recordingTime * 1000 < minRecordingDuration) :
    (onStopRecording recordingTime minRecordingDuration).pipelineInvoked = false ∧
    (onStopRecording recordingTime minRecordingDuration).errorMessage =
      some ("Recording is too short. Please speak longer.") ∧
    (onStopRecording recordingTime minRecordingDuration).stateSet = VoiceState.error ∧
    (onStopRecording recordingTime minRecordingDuration).resourcesReleased = true ∧
    (onStopRecording recordingTime minRecordingDuration).idleDelayMs = some 3000 := by
  simp [onStopRecording, h]

/-- Witness for C2 at a 0 s reading against the default 1000 ms minimum. -/
theorem tooShortRecording_skips_pipeline_witness :
    (onStopRecording 0 1000).pipelineInvoked = false ∧
    (onStopRecording 0 1000).errorMessage =
      some ("Recording is too short. Please speak longer.") ∧
    (onStopRecording 0 1000).stateSet = VoiceState.error ∧
    (onStopRecording 0 1000).resourcesReleased = true ∧
    (onStopRecording 0 1000).idleDelayMs = some 3000 :=
  tooShortRecording_skips_pipeline 0 1000 (by decide)

/-- C7: invoking startRecording while the capture state is neither idle nor
error is a no-op: the hook state is unchanged and no microphone acquisition
(no second recording session) is initiated. -/
theorem startRecording_reentry_guard (s : VoiceHookState)
    (h1 : s.state ≠ VoiceState.idle) (h2 : s.state ≠ VoiceState.error) :
    startRecordingStep s = ⟨s, false⟩ := by
  simp [startRecordingStep, h1, h2]

/-- Witness for C7 in the listening state. -/
theorem startRecording_reentry_guard_witness :
    startRecordingStep ⟨VoiceState.listening, none, none, none, 3⟩ =
      ⟨⟨VoiceState.listening, none, none, none, 3⟩, false⟩ :=
  startRecording_reentry_guard ⟨VoiceState.listening, none, none, none, 3⟩
    (by decide) (by decide)

/-- C5: the deterministic fallback extractor maps
`Send 50 USDC to 0x1234567890123456789012345678901234567890` to a send
intent of amount 50 with that recipient and confirmation required. -/
theorem fallback_send_roundtrip :
    (extractIntentFallback sendFiftyCommand).action = "send" ∧
    (extractIntentFallback sendFiftyCommand).amount = 50 ∧
    (extractIntentFallback sendFiftyCommand).recipient =
      some ("0x1234567890123456789012345678901234567890") ∧
    (extractIntentFallback sendFiftyCommand).confirmationRequired = true := by
  refine ⟨?_, ?_, ?_, ?_⟩ <;> decide

/-- C6: a fallback intent carries confirmationRequired = false exactly when
its action is check_balance or view_history; concretely, the balance
question maps to a check_balance intent of amount 0 without confirmation. -/
theorem fallback_confirmation_readonly :
    (∀ text : String,
      ((extractIntentFallback text).confirmationRequired = false ↔
        ((extractIntentFallback text).action = "check_balance" ∨
          (extractIntentFallback text).action = "view_history"))) ∧
    ((extractIntentFallback balanceQuestion).action = "check_balance" ∧
      (extractIntentFallback balanceQuestion).amount = 0 ∧
      (extractIntentFallback balanceQuestion).confirmationRequired = false) := by
  constructor
  · intro text
    simp only [extractIntentFallback]
    repeat' split
    all_goals simp_all
  · refine ⟨?_, ?_, ?_⟩ <;> decide

/-- Helper: a fold of history appends equals the newest-first take of the
reversed append sequence over the initial history. -/
theorem foldl_appendCommand_eq (cmds : List VoiceCommand) (init : List VoiceCommand)
    (h : init.length ≤ historyCapacity) :
    cmds.foldl appendCommand init = (cmds.reverse ++ init).take historyCapacity := by
  induction cmds generalizing init with
  | nil =>
    simpa using (List.take_of_length_le h).symm
  | cons c cs ih =>
    have hlen : (appendCommand init c).length ≤ historyCapacity := by
      simp [appendCommand, List.length_take]
    have hstep := ih (appendCommand init c) hlen
    have hk : historyCapacity - (cs.reverse).length ≤ historyCapacity :=
      Nat.sub_le _ _
    calc (c :: cs).foldl appendCommand init
        = cs.foldl appendCommand (appendCommand init c) := rfl
      _ = (cs.reverse ++ (c :: init).take historyCapacity).take historyCapacity := hstep
      _ = (cs.reverse ++ (c :: init)).take historyCapacity := by
          rw [List.take_append_eq_append_take, List.take_append_eq_append_take,
            List.take_take]
          rw [Nat.min_eq_left hk]
      _ = ((c :: cs).reverse ++ init).take historyCapacity := by
          rw [List.reverse_cons, List.append_assoc, List.singleton_append]

/-- C8: the command history is bounded by 10 entries and ordered newest
first — after any sequence of appends only the `historyCapacity` most
recent entries remain, newest first — and clearHistory yields the empty
history, twice in a row. -/
theorem commandHistory_bound_and_clear :
    (∀ (init cmds : List VoiceCommand), init.length ≤ historyCapacity →
      cmds.foldl appendCommand init = (cmds.reverse ++ init).take historyCapacity ∧
      (cmds.foldl appendCommand init).length ≤ historyCapacity) ∧
    (∀ h : List VoiceCommand, clearHistory h = [] ∧ clearHistory (clearHistory h) = []) := by
  constructor
  · intro init cmds h
    refine ⟨foldl_appendCommand_eq cmds init h, ?_⟩
    rw [foldl_appendCommand_eq cmds init h]
    simp [List.length_take]
  · intro h
    exact ⟨rfl, rfl⟩

/-- Witness for C8: appending 15 concrete entries to the empty history
leaves exactly the 10 newest, newest first, and clearing twice is empty. -/
theorem commandHistory_bound_and_clear_witness :
    (([] : List VoiceCommand).length ≤ historyCapacity ∧
      ((List.range 15).map (fun i => VoiceCommand.mk (toString i) ("t") none true)).foldl
          appendCommand [] =
        (((List.range 15).map
            (fun i => VoiceCommand.mk (toString i) ("t") none true)).reverse ++
          []).take historyCapacity) ∧
    clearHistory (clearHistory []) = [] :=
  ⟨⟨by decide,
    (commandHistory_bound_and_clear.1 []
      ((List.range 15).map (fun i => VoiceCommand.mk (toString i) ("t") none true))
      (by decide)).1⟩,
    (commandHistory_bound_and_clear.2 []).2⟩

/-- Helper: a run of the retry loop on an always-failing operation with
`n + 1` iterations left makes `n + 1` attempts, waits after every failing
attempt except the last, and ends with the last error. -/
theorem retryAux_allFail (ε α : Type) (e : Nat → ε) (delay : Nat) :
    ∀ (n i : Nat) (last : Option ε),
      retryAux (fun j => (Except.error (e j) : Except ε α)) delay (n + 1) i last =
        ⟨Except.error (some (e (i + n))), n + 1,
          (List.range n).map (fun j => delay * 2 ^ (i + j))⟩ := by
  intro n
  induction n with
  | zero =>
    intro i last
    simp [retryAux]
  | succ n ih =>
    intro i last
    have hstep : retryAux (fun j => (Except.error (e j) : Except ε α)) delay (n + 1 + 1) i last =
        ⟨(retryAux (fun j => (Except.error (e j) : Except ε α)) delay (n + 1) (i + 1)
            (some (e i))).result,
          (retryAux (fun j => (Except.error (e j) : Except ε α)) delay (n + 1) (i + 1)
            (some (e i))).attempts + 1,
          [delay * 2 ^ i] ++
            (retryAux (fun j => (Except.error (e j) : Except ε α)) delay (n + 1) (i + 1)
              (some (e i))).waits⟩ := rfl
    have h1 : i + 1 + n = i + (n + 1) := by omega
    have h2 : (List.range (n + 1)).map (fun j => delay * 2 ^ (i + j)) =
        delay * 2 ^ i :: (List.range n).map (fun j => delay * 2 ^ (i + 1 + j)) := by
      rw [List.range_succ_eq_map, List.map_cons, List.map_map]
      refine congrArg₂ _ (by simp) ?_
      have hf : ((fun j => delay * 2 ^ (i + j)) ∘ Nat.succ) =
          (fun j => delay * 2 ^ (i + 1 + j)) := by
        funext j
        show delay * 2 ^ (i + (j + 1)) = delay * 2 ^ (i + 1 + j)
        rw [show i + (j + 1) = i + 1 + j by omega]
      rw [hf]
    rw [hstep, ih (i + 1) (some (e i))]
    rw [h1, h2]
    rfl

/-- C4 counterexample: for an operation that always fails and
maxRetries = 3, retryWithBackoff performs exactly 3 attempts — not the
initial attempt plus 3 retries (4 attempts) the claim states — before
the last error is thrown, and it waits only after the first two failures. -/
theorem retry_attempt_count_counterexample :
    (retryWithBackoff (fun j => (Except.error j : Except Nat Unit)) 3 1000).attempts = 3 ∧
    (retryWithBackoff (fun j => (Except.error j : Except Nat Unit)) 3 1000).result =
      Except.error (some 2) ∧
    (retryWithBackoff (fun j => (Except.error j : Except Nat Unit)) 3 1000).waits =
      [1000, 2000] ∧
    (3 : Nat) ≠ 3 + 1 := by
  refine ⟨rfl, rfl, rfl, by decide⟩

/-- C4 (amended): retryWithBackoff makes exactly maxRetries attempts in
total — the initial attempt plus maxRetries − 1 retries, not maxRetries
retries — waiting delay × 2^i after failing attempt i for every
i < maxRetries − 1, and then propagates the last error. -/
theorem retryWithBackoff_exhausts (ε α : Type) (e : Nat → ε)
    (maxRetries delay : Nat) (h : 0 < maxRetries) :
    retryWithBackoff (fun j => (Except.error (e j) : Except ε α)) maxRetries delay =
      ⟨Except.error (some (e (maxRetries - 1))), maxRetries,
        (List.range (maxRetries - 1)).map (fun j => delay * 2 ^ j)⟩ := by
  cases maxRetries with
  | zero => exact absurd h (by decide)
  | succ n =>
    have := retryAux_allFail ε α e delay n 0 none
    simpa [retryWithBackoff] using this

/-- Witness for C4 (amended) at maxRetries = 3, delay = 1000. -/
theorem retryWithBackoff_exhausts_witness :
    0 < 3 ∧
    retryWithBackoff (fun j => (Except.error j : Except Nat Unit)) 3 1000 =
      ⟨Except.error (some 2), 3, [1000, 2000]⟩ :=
  ⟨by decide,
    (retryWithBackoff_exhausts Nat Unit (fun j => j) 3 1000 (by decide)).trans (by rfl)⟩

/-- C9: every intent built on the AI path requires confirmation unless the
parsed response's confirmationRequired field is exactly the boolean false,
its currency is always USDC, and an unparsable amount becomes 0. -/
theorem aiIntent_construction_defaults (text : String) (d : AIIntentData) :
    ((extractIntentFromAI text d).confirmationRequired = true ↔
      d.confirmationRequired ≠ JsVal.bool false) ∧
    (extractIntentFromAI text d).currency = "USDC" ∧
    (jsParseFloat d.amount = none → (extractIntentFromAI text d).amount = 0) := by
  refine ⟨?_, rfl, ?_⟩
  · show (d.confirmationRequired != JsVal.bool false) = true ↔ _
    simp [bne_iff_ne]
  · intro h
    show (jsParseFloat d.amount).getD 0 = 0
    rw [h]
    rfl

/-- Witness for C9 with an omitted confirmation field and an unparsable
amount string. -/
theorem aiIntent_construction_defaults_witness :
    ((extractIntentFromAI ("hi") ⟨JsVal.undef, JsVal.str ("abc"), JsVal.undef,
        JsVal.undef⟩).confirmationRequired = true ↔
      JsVal.undef ≠ JsVal.bool false) ∧
    (extractIntentFromAI ("hi") ⟨JsVal.undef, JsVal.str ("abc"), JsVal.undef,
      JsVal.undef⟩).amount = 0 :=
  ⟨(aiIntent_construction_defaults ("hi")
      ⟨JsVal.undef, JsVal.str ("abc"), JsVal.undef, JsVal.undef⟩).1,
    (aiIntent_construction_defaults ("hi")
      ⟨JsVal.undef, JsVal.str ("abc"), JsVal.undef, JsVal.undef⟩).2.2 (by decide)⟩

/-- C10: the POST /api/nlp gate returns the 400 MISSING_TEXT failure when
the body's text is absent or not a string, never invokes intent extraction
when the sanitized text is empty (always a 400 failure there), and returns
the 400 INVALID_TEXT failure when a nonempty text sanitizes to empty —
sanitization trims whitespace and strips angle brackets and control
characters. -/
theorem nlpGate_rejects_invalid_input (t : Option JsVal) :
    ((∀ s : String, t ≠ some (JsVal.str s)) →
      nlpGate t = NlpGateResult.missingText ∧ gateStatus (nlpGate t) = 400 ∧
      gateErrorCode (nlpGate t) = some ("MISSING_TEXT")) ∧
    (∀ s : String, t = some (JsVal.str s) → sanitizeInput s = "" →
      gateInvokesExtraction (nlpGate t) = false ∧ gateStatus (nlpGate t) = 400) ∧
    (∀ s : String, t = some (JsVal.str s) → s ≠ "" → sanitizeInput s = "" →
      nlpGate t = NlpGateResult.invalidText ∧
      gateErrorCode (nlpGate t) = some ("INVALID_TEXT")) := by
  refine ⟨?_, ?_, ?_⟩
  · intro h
    match t with
    | none => exact ⟨rfl, rfl, rfl⟩
    | some JsVal.undef => exact ⟨rfl, rfl, rfl⟩
    | some JsVal.null => exact ⟨rfl, rfl, rfl⟩
    | some (JsVal.bool b) => exact ⟨rfl, rfl, rfl⟩
    | some (JsVal.num q) => exact ⟨rfl, rfl, rfl⟩
    | some (JsVal.str s) => exact absurd rfl (h s)
  · intro s ht hs
    subst ht
    by_cases he : s = ""
    · subst he
      exact ⟨rfl, rfl⟩
    · have hb : (s == "") = false := by
        simpa using he
      simp [nlpGate, hb, hs, gateInvokesExtraction, gateStatus]
  · intro s ht he hs
    subst ht
    have hb : (s == "") = false := by
      simpa using he
    simp [nlpGate, hb, hs, gateErrorCode]

/-- Witness for C10: a non-string body, and a nonempty text of whitespace
and angle brackets that sanitizes to empty. -/
theorem nlpGate_rejects_invalid_input_witness :
    (nlpGate (some (JsVal.num 5)) = NlpGateResult.missingText ∧
      gateStatus (nlpGate (some (JsVal.num 5))) = 400 ∧
      gateErrorCode (nlpGate (some (JsVal.num 5))) = some ("MISSING_TEXT")) ∧
    (gateInvokesExtraction (nlpGate (some (JsVal.str (" <> ")))) = false ∧
      gateStatus (nlpGate (some (JsVal.str (" <> ")))) = 400) ∧
    (nlpGate (some (JsVal.str (" <> "))) = NlpGateResult.invalidText ∧
      gateErrorCode (nlpGate (some (JsVal.str (" <> ")))) = some ("INVALID_TEXT")) :=
  ⟨(nlpGate_rejects_invalid_input (some (JsVal.num 5))).1 (by simp),
    (nlpGate_rejects_invalid_input (some (JsVal.str (" <> ")))).2.1 (" <> ") rfl
      (by decide),
    (nlpGate_rejects_invalid_input (some (JsVal.str (" <> ")))).2.2 (" <> ") rfl
      (by decide) (by decide)⟩

/-- Helper: the validity flag is by construction the emptiness of the
accumulated error list. -/
theorem validatePaymentIntent_valid_eq (isAddr : String → Bool) (intent : PaymentIntent) :
    (validatePaymentIntent isAddr intent).valid =
      ((validatePaymentIntent isAddr intent).errors).isEmpty := rfl

/-- C3: the intent validator collects violations as data: an action that
requires an amount together with a nonpositive amount yields valid = false
with the amount error; a send to the zero address carries the
zero-address error regardless of amount validity; and valid = true holds
exactly when the error list is empty. -/
theorem validatePaymentIntent_rules (isAddr : String → Bool) (intent : PaymentIntent) :
    (actionsRequiringAmount.contains intent.action = true → intent.amount ≤ 0 →
      (validatePaymentIntent isAddr intent).valid = false ∧
      ("Amount is required and must be greater than zero") ∈
        (validatePaymentIntent isAddr intent).errors) ∧
    (intent.action = "send" → intent.recipient = some zeroAddress →
      ("Cannot send to zero address") ∈ (validatePaymentIntent isAddr intent).errors) ∧
    ((validatePaymentIntent isAddr intent).valid = true ↔
      (validatePaymentIntent isAddr intent).errors = []) := by
  refine ⟨?_, ?_, ?_⟩
  · intro hact hamt
    have hact' : intent.action ∈ actionsRequiringAmount := by
      simpa using hact
    have hmem : ("Amount is required and must be greater than zero") ∈
        (validatePaymentIntent isAddr intent).errors := by
      simp [validatePaymentIntent, hamt, hact']
    refine ⟨?_, hmem⟩
    cases herr : (validatePaymentIntent isAddr intent).errors with
    | nil =>
      rw [herr] at hmem
      cases hmem
    | cons a l =>
      rw [validatePaymentIntent_valid_eq, herr]
      rfl
  · intro hsend hrec
    simp [validatePaymentIntent, hsend, hrec, isZeroAddress]
  · rw [validatePaymentIntent_valid_eq]
    exact List.isEmpty_iff

/-- Witness for C3: a send intent of amount 0 to the zero address under a
permissive address-shape test. -/
theorem validatePaymentIntent_rules_witness :
    ((validatePaymentIntent (fun _ => true)
        ⟨"send", 0, "USDC", some zeroAddress, none, true, "", true⟩).valid = false ∧
      ("Amount is required and must be greater than zero") ∈
        (validatePaymentIntent (fun _ => true)
          ⟨"send", 0, "USDC", some zeroAddress, none, true, "", true⟩).errors) ∧
    ("Cannot send to zero address") ∈
      (validatePaymentIntent (fun _ => true)
        ⟨"send", 0, "USDC", some zeroAddress, none, true, "", true⟩).errors :=
  ⟨(validatePaymentIntent_rules (fun _ => true)
      ⟨"send", 0, "USDC", some zeroAddress, none, true, "", true⟩).1
        (by decide) (by decide),
    (validatePaymentIntent_rules (fun _ => true)
      ⟨"send", 0, "USDC", some zeroAddress, none, true, "", true⟩).2.1 rfl rfl⟩

/-- Helper: the gas-safety buffer is one hundredth, i.e. 0.01. -/
theorem gasBufferUSDC_eq : gasBufferUSDC = 1 / 100 := by
  rw [gasBufferUSDC, Rat.mk'_eq_divInt]
  norm_num [Rat.divInt_eq_div]

/-- C1 counterexample: with balance 100.00 and amount 99.995 (written as
19999/200 = 99995/1000), the executor's pre-checks let the submission
proceed even though 99.995 + 0.01 > 100.00 — the executor applies no
safety buffer, so the claimed rejection does not happen. -/
theorem handleSend_buffer_counterexample :
    mkRat 19999 200 = 99995 / 1000 ∧
    (100 : ℚ) < 99995 / 1000 + gasBufferUSDC ∧
    handleSendGate true (some ("0x1234567890123456789012345678901234567890"))
      (mkRat 19999 200) 100 = Except.ok () := by
  refine ⟨?_, ?_, ?_⟩
  · rw [Rat.mkRat_eq_div]
    norm_num
  · rw [gasBufferUSDC_eq]
    norm_num
  · rfl

/-- C1 (amended): past the wallet, recipient and amount-validation checks,
the executor submits exactly when the balance is at least the amount, with
no safety buffer; the buffered rule lives in the standalone
validateSufficientBalance helper (not called by the executor), which at
balance 100.00 rejects amount 99.995 and accepts amount 99.98. -/
theorem handleSend_balance_check_amended :
    (∀ (r : String) (b a : ℚ), r ≠ "" → (arcValidateAmount a).valid = true →
      (handleSendGate true (some r) a b = Except.ok () ↔ a ≤ b)) ∧
    (validateSufficientBalance (some 100) (some (99995 / 1000)) true).sufficient =
      false ∧
    (validateSufficientBalance (some 100) (some (9998 / 100)) true).sufficient =
      true := by
  refine ⟨?_, ?_, ?_⟩
  · intro r b a hr hv
    have hr' : (r == "") = false := by
      simpa using hr
    have ha : ¬ a ≤ 0 := by
      intro hle
      rw [arcValidateAmount, if_pos hle] at hv
      cases hv
    have hgate : handleSendGate true (some r) a b =
        if b < a then Except.error SendAbort.insufficientBalance else Except.ok () := by
      simp [handleSendGate, hr', ha, hv]
    rw [hgate]
    constructor
    · intro hok
      by_contra hab
      rw [if_pos (lt_of_not_ge hab)] at hok
      cases hok
    · intro hab
      rw [if_neg (not_lt.mpr hab)]
  · have h2 : (100 : ℚ) < 99995 / 1000 + gasBufferUSDC := by
      rw [gasBufferUSDC_eq]
      norm_num
    simp [validateSufficientBalance, h2]
  · have h3 : ¬ ((100 : ℚ) < 9998 / 100 + gasBufferUSDC) := by
      rw [gasBufferUSDC_eq]
      norm_num
    simp [validateSufficientBalance, h3]

/-- Witness for C1 (amended) at recipient 0xabc, amount 50, balance 100. -/
theorem handleSend_balance_check_amended_witness :
    handleSendGate true (some ("0xabc")) 50 100 = Except.ok () ↔ (50 : ℚ) ≤ 100 :=
  handleSend_balance_check_amended.1 ("0xabc") 100 50 (by decide) (by decide)

end VoicePay
